import Mathlib

/-!
Verification development for the buzzer-game room session engine of
the-snesler/buckys-buzzer-beater.

The repository ships the web client (useWebSocket.ts, Player.tsx, Lobby.tsx,
HostDisplay, GameBuilder), a Dockerfile, and the refactor notes plan.md; the
Rust server sources (room engine, buzz arbiter, connection handler) referenced
by the Dockerfile under apps/server are not part of the provided tree.  The
server-side definitions below are therefore modelled from the specification
(spec.md sections 3, 4.2, 4.3, 4.4) and the plan.md notes, while the client
WebSocket hook is embedded directly from useWebSocket.ts.
-/

/-- Modelled from the spec: a buzz candidate accumulated by the Buzz Arbiter
while a window is open — pid, server clock timestamp at processing time, and
the player's latency estimate sampled at that moment (spec section 3,
BuzzCandidate; server source absent from the tree). -/
structure BuzzCandidate where
  pid : Nat
  server_receipt_time : Nat
  latency_ms_at_receipt : Nat
deriving Repr, DecidableEq

/-- Modelled from the spec: adjusted time of a candidate, the estimated true
client-side action instant: server receipt time minus the measured one-way
latency (spec section 4.4 step 2; plan.md "sort candidates by Arrival -
Latency"). -/
def adjusted_time (c : BuzzCandidate) : Int :=
  (c.server_receipt_time : Int) - (c.latency_ms_at_receipt : Int)

/-- Modelled from the spec: strict comparison used by the arbiter — earlier
adjusted time wins; ties break by earlier server receipt time, then by lower
pid (spec section 4.4 step 3). -/
def candBetter (a b : BuzzCandidate) : Bool :=
  decide (adjusted_time a < adjusted_time b) ||
    (decide (adjusted_time a = adjusted_time b) &&
      (decide (a.server_receipt_time < b.server_receipt_time) ||
        (decide (a.server_receipt_time = b.server_receipt_time) &&
          decide (a.pid < b.pid))))

/-- One fold step of the arbiter: keep the better of the best-so-far and the
next candidate (the incumbent is kept on a full tie). -/
def pickBetter (best x : BuzzCandidate) : BuzzCandidate :=
  if candBetter x best then x else best

/-- Modelled from the spec: the Buzz Arbiter resolution, run once when a buzz
window closes — none on an empty candidate list, otherwise the minimum under
the (adjusted time, receipt time, pid) lexicographic order (spec section 4.4;
plan.md Room::tick "sort candidates by Arrival - Latency, declare winner"). -/
def resolveWinner : List BuzzCandidate → Option BuzzCandidate
  | [] => none
  | c :: cs => some (cs.foldl pickBetter c)

lemma candBetter_iff (a b : BuzzCandidate) :
    candBetter a b = true ↔
      (adjusted_time a < adjusted_time b ∨
        (adjusted_time a = adjusted_time b ∧
          (a.server_receipt_time < b.server_receipt_time ∨
            (a.server_receipt_time = b.server_receipt_time ∧ a.pid < b.pid)))) := by
  simp [candBetter]

lemma candBetter_false_iff (a b : BuzzCandidate) :
    candBetter a b = false ↔
      ¬ (adjusted_time a < adjusted_time b ∨
        (adjusted_time a = adjusted_time b ∧
          (a.server_receipt_time < b.server_receipt_time ∨
            (a.server_receipt_time = b.server_receipt_time ∧ a.pid < b.pid)))) := by
  rw [← candBetter_iff]
  simp

lemma candBetter_irrefl (a : BuzzCandidate) : candBetter a a = false := by
  rw [candBetter_false_iff]
  omega

lemma candBetter_trans {a b c : BuzzCandidate}
    (h1 : candBetter a b = true) (h2 : candBetter b c = true) :
    candBetter a c = true := by
  rw [candBetter_iff] at h1 h2 ⊢
  omega

lemma candBetter_false_trans {a b c : BuzzCandidate}
    (h1 : candBetter a b = false) (h2 : candBetter b c = false) :
    candBetter a c = false := by
  rw [candBetter_false_iff] at h1 h2 ⊢
  omega

lemma pickBetter_cases (best x : BuzzCandidate) :
    pickBetter best x = best ∨ pickBetter best x = x := by
  unfold pickBetter
  split <;> simp

lemma foldl_pickBetter_mem (cs : List BuzzCandidate) (c : BuzzCandidate) :
    cs.foldl pickBetter c ∈ c :: cs := by
  induction cs generalizing c with
  | nil => simp
  | cons y ys ih =>
    simp only [List.foldl_cons]
    rcases pickBetter_cases c y with h | h <;> rw [h]
    · have := ih c
      simp at this ⊢
      tauto
    · have := ih y
      simp at this ⊢
      tauto

lemma foldl_pickBetter_min (cs : List BuzzCandidate) (c : BuzzCandidate) :
    ∀ x ∈ c :: cs, candBetter x (cs.foldl pickBetter c) = false := by
  induction cs generalizing c with
  | nil =>
    intro x hx
    simp at hx
    subst hx
    simpa using candBetter_irrefl x
  | cons y ys ih =>
    intro x hx
    rw [List.mem_cons, List.mem_cons] at hx
    simp only [List.foldl_cons]
    by_cases hb : candBetter y c = true
    · have hstep : pickBetter c y = y := by simp [pickBetter, hb]
      rw [hstep]
      have hmin := ih y
      rcases hx with rfl | rfl | hx
      · -- x is the old incumbent, beaten by y
        have hy : candBetter y (ys.foldl pickBetter y) = false := hmin y (by simp)
        by_contra hcontra
        rw [Bool.not_eq_false] at hcontra
        exact absurd (candBetter_trans hb hcontra) (by simp [hy])
      · exact hmin x (by simp)
      · exact hmin x (by simp [hx])
    · have hstep : pickBetter c y = c := by
        simp [pickBetter, Bool.not_eq_true] at hb ⊢
        simp [hb]
      rw [hstep]
      have hmin := ih c
      rcases hx with rfl | rfl | hx
      · exact hmin x (by simp)
      · -- x is the rejected newcomer
        have hc : candBetter c (ys.foldl pickBetter c) = false := hmin c (by simp)
        exact candBetter_false_trans (by simpa using hb) hc
      · exact hmin x (by simp [hx])

lemma resolveWinner_mem {cs : List BuzzCandidate} {w : BuzzCandidate}
    (h : resolveWinner cs = some w) : w ∈ cs := by
  cases cs with
  | nil => simp [resolveWinner] at h
  | cons c cs =>
    simp only [resolveWinner, Option.some.injEq] at h
    subst h
    exact foldl_pickBetter_mem cs c

lemma resolveWinner_min {cs : List BuzzCandidate} {w : BuzzCandidate}
    (h : resolveWinner cs = some w) :
    ∀ c ∈ cs, candBetter c w = false := by
  cases cs with
  | nil => simp [resolveWinner] at h
  | cons c cs =>
    simp only [resolveWinner, Option.some.injEq] at h
    subst h
    exact fun x hx => foldl_pickBetter_min cs c x hx

lemma resolveWinner_isSome {cs : List BuzzCandidate} (h : cs ≠ []) :
    ∃ w, resolveWinner cs = some w := by
  cases cs with
  | nil => exact absurd rfl h
  | cons c cs => exact ⟨cs.foldl pickBetter c, rfl⟩

/-- Room phases, named after the state strings the client renders
(HostDisplay.tsx: selection, questionReading, waitingForBuzz, answer,
answerReveal, gameEnd; spec section 4.3). -/
inductive RoomState where
  | selection
  | questionReading
  | waitingForBuzz
  | answer
  | answerReveal
  | gameEnd
deriving Repr, DecidableEq

/-- A board question: prompt, answer text, point value, answered flag
(client Question interface in HostDisplay.tsx; spec section 3). -/
structure Question where
  question : String
  answer : String
  value : Int
  answered : Bool
deriving Repr, DecidableEq

/-- Modelled from the spec: per-player roster entry of the room engine
(spec section 3, PlayerEntry; plan.md "add latency_ms: u32 and
last_ping_sent: Option"; server source absent from the tree).  The live
connection is modelled as an optional connection identifier. -/
structure PlayerEntry where
  pid : Nat
  name : String
  token : Nat
  score : Int
  latency_ms : Nat
  last_ping_sent : Option Nat
  has_buzzed : Bool
  connection : Option Nat
deriving Repr, DecidableEq

/-- Inbound commands, embedded from the client GameCommand union in
apps/web/src/types/messages.ts. -/
inductive GameCommand where
  | startGame
  | endGame
  | buzz
  | hostReady
  | hostChoice (categoryIndex : Nat) (questionIndex : Nat)
  | hostChecked (correct : Bool)
  | hostSkip
  | hostContinue
  | heartbeat (hbid : Nat) (tDohbRecv : Nat)
  | latencyOfHeartbeat (hbid : Nat) (tLat : Nat)
deriving Repr, DecidableEq

/-- Modelled from the spec: the outbound events the claims mention —
buzz-window-opened, buzz-window-closed, the winner announcement (none when
the window closed with no candidates), and the answer-correctness result
(spec section 4.1; server source absent from the tree). -/
inductive GameEvent where
  | buzzWindowOpened
  | buzzWindowClosed
  | buzzWinner (winner : Option Nat)
  | answerResult (correct : Bool)
deriving Repr, DecidableEq

/-- Modelled from the spec: the room engine state (spec section 3, Room;
plan.md "add buzz_candidates: Vec and buzz_window_end"; server source absent
from the tree).  board is the category-major question grid; diag is the
store for client-reported diagnostic latency figures, kept apart from the
roster's latency_ms, which alone feeds arbitration (spec section 6,
heartbeat sub-protocol). -/
structure Room where
  state : RoomState
  board : List (List Question)
  current_question : Option (Nat × Nat)
  players : List PlayerEntry
  buzz_candidates : List BuzzCandidate
  buzz_window_end : Option Nat
  window_duration : Nat
  current_buzzer : Option Nat
  diag : List (Nat × Nat)
deriving Repr, DecidableEq

/-- Look a question up by category and question index. -/
def questionAt (r : Room) (ci qi : Nat) : Option Question :=
  (r.board.get? ci).bind fun cat => cat.get? qi

/-- Roster lookup by pid. -/
def findPlayer (r : Room) (pid : Nat) : Option PlayerEntry :=
  r.players.find? fun p => p.pid == pid

/-- Whether some collected candidate already carries this pid. -/
def hasCandidate (r : Room) (pid : Nat) : Bool :=
  r.buzz_candidates.any fun c => c.pid == pid

/-- How many collected candidates carry this pid. -/
def countCandidates (r : Room) (pid : Nat) : Nat :=
  r.buzz_candidates.countP fun c => c.pid == pid

/-- Apply a function to the entry with the given pid, leaving the rest of
the roster unchanged. -/
def updatePlayer (r : Room) (pid : Nat) (f : PlayerEntry → PlayerEntry) : Room :=
  { r with players := r.players.map fun p => if p.pid == pid then f p else p }

/-- Replace the element at an index, if present. -/
def listModify (f : α → α) : Nat → List α → List α
  | _, [] => []
  | 0, a :: as => f a :: as
  | n + 1, a :: as => a :: listModify f n as

/-- Modelled from the spec: mark the current question answered on the board
(spec section 4.3, HostChecked and HostSkip edges). -/
def markAnswered (r : Room) : Room :=
  match r.current_question with
  | none => r
  | some (ci, qi) =>
    { r with board := listModify (listModify (fun q => { q with answered := true }) qi) ci r.board }

/-- Point value of the current question, zero when none is active. -/
def questionValue (r : Room) : Int :=
  match r.current_question with
  | none => 0
  | some (ci, qi) =>
    match questionAt r ci qi with
    | none => 0
    | some q => q.value

/-- Modelled from the spec: apply the signed score delta of the current
question to the buzz winner (spec section 4.3, Answer --HostChecked-->
AnswerReveal). -/
def applyWinnerScore (r : Room) (correct : Bool) : Room :=
  match r.current_buzzer with
  | none => r
  | some bp =>
    updatePlayer r bp fun p =>
      { p with score := p.score + (if correct then questionValue r else -questionValue r) }

/-- Modelled from the spec: the buzz handler (spec section 4.3,
WaitingForBuzz --Buzz--> WaitingForBuzz; plan.md handle_buzz "do not declare
winner immediately; push player + current timestamp + their latency into
buzz_candidates").  A buzz is appended only while the window is open, only
for a known player, and only if the pid has no candidate yet; no winner is
declared here. -/
def handle_buzz (r : Room) (pid now : Nat) : Room × List GameEvent :=
  match r.buzz_window_end with
  | none => (r, [])
  | some e =>
    if now < e then
      if hasCandidate r pid then (r, [])
      else
        match findPlayer r pid with
        | none => (r, [])
        | some p =>
          ({ r with buzz_candidates := r.buzz_candidates ++ [⟨pid, now, p.latency_ms⟩] }, [])
    else (r, [])

/-- Modelled from the spec: transition applied by HostSkip — mark the
question answered with no score change, skip arbitration, drop any pending
window (spec section 4.3). -/
def skipQuestion (r : Room) : Room :=
  { markAnswered r with
    state := RoomState.answerReveal
    buzz_candidates := []
    buzz_window_end := none
    current_buzzer := none }

/-- Modelled from the spec: the room engine command step (spec section 4.3
state machine; server source absent from the tree).  Commands that do not
match a listed edge for the current state are silently ignored; the two
heartbeat-tagged commands are consumed by the Connection Handler
(roomHandlePong and roomHandleLatencyReport below), never by this state
machine. -/
def applyCommand (r : Room) (pid now : Nat) (c : GameCommand) : Room × List GameEvent :=
  match r.state, c with
  | RoomState.selection, GameCommand.hostChoice ci qi =>
    match questionAt r ci qi with
    | none => (r, [])
    | some q =>
      if q.answered then (r, [])
      else ({ r with state := RoomState.questionReading, current_question := some (ci, qi) }, [])
  | RoomState.questionReading, GameCommand.hostReady =>
    ({ r with
        state := RoomState.waitingForBuzz
        buzz_candidates := []
        buzz_window_end := some (now + r.window_duration) },
      [GameEvent.buzzWindowOpened])
  | RoomState.waitingForBuzz, GameCommand.buzz => handle_buzz r pid now
  | RoomState.answer, GameCommand.hostChecked correct =>
    ({ markAnswered (applyWinnerScore r correct) with state := RoomState.answerReveal },
      [GameEvent.answerResult correct])
  | RoomState.answerReveal, GameCommand.hostContinue =>
    ({ r with
        state := RoomState.selection
        current_question := none
        current_buzzer := none
        players := r.players.map fun p => { p with has_buzzed := false } },
      [])
  | RoomState.questionReading, GameCommand.hostSkip => (skipQuestion r, [])
  | RoomState.waitingForBuzz, GameCommand.hostSkip => (skipQuestion r, [])
  | RoomState.answer, GameCommand.hostSkip => (skipQuestion r, [])
  | _, GameCommand.endGame => ({ r with state := RoomState.gameEnd }, [])
  | _, _ => (r, [])

/-- Modelled from the spec: the periodic tick (spec section 4.3,
WaitingForBuzz --tick, window elapsed--> Answer; plan.md Room::tick).  It
fires arbitration only once now has reached buzz_window_end, broadcasting
the winner (or none) and moving to Answer; the winner's roster entry is
marked has_buzzed (spec section 4.4 step 4). -/
def tick (r : Room) (now : Nat) : Room × List GameEvent :=
  match r.state, r.buzz_window_end with
  | RoomState.waitingForBuzz, some e =>
    if now < e then (r, [])
    else
      match resolveWinner r.buzz_candidates with
      | some w =>
        ({ (updatePlayer r w.pid fun p => { p with has_buzzed := true }) with
            state := RoomState.answer
            buzz_candidates := []
            buzz_window_end := none
            current_buzzer := some w.pid },
          [GameEvent.buzzWindowClosed, GameEvent.buzzWinner (some w.pid)])
      | none =>
        ({ r with
            state := RoomState.answer
            buzz_candidates := []
            buzz_window_end := none
            current_buzzer := none },
          [GameEvent.buzzWindowClosed, GameEvent.buzzWinner none])
  | _, _ => (r, [])

/-- Modelled from the spec: heartbeat acknowledgement handling on one roster
entry — with a probe outstanding, round-trip time is now minus the send
timestamp and latency_ms becomes half of it; the probe is then cleared (spec
section 4.2; plan.md "Client replies Pong, Server does (Now - Timestamp / 2)",
the round trip halved). -/
def handlePong (p : PlayerEntry) (now : Nat) : PlayerEntry :=
  match p.last_ping_sent with
  | none => p
  | some ts => { p with latency_ms := (now - ts) / 2, last_ping_sent := none }

/-- Connection-handler action for an inbound Heartbeat acknowledgement:
update that player's latency estimate. -/
def roomHandlePong (r : Room) (pid now : Nat) : Room :=
  updatePlayer r pid fun p => handlePong p now

/-- Modelled from the spec: connection-handler action for an inbound
LatencyOfHeartbeat report — the client-perceived figure is recorded for
diagnostic display only and never touches the roster's latency_ms (spec
section 6, heartbeat sub-protocol). -/
def roomHandleLatencyReport (r : Room) (pid tLat : Nat) : Room :=
  { r with diag := (pid, tLat) :: r.diag }

/-- Modelled from the spec: a fresh roster entry created by the join
handshake — zero score, no buzz, latency_ms zero until the first heartbeat
completes (spec sections 3 and 4.2). -/
def newPlayerEntry (pid token : Nat) (name : String) (connId : Nat) : PlayerEntry :=
  { pid := pid
    name := name
    token := token
    score := 0
    latency_ms := 0
    last_ping_sent := none
    has_buzzed := false
    connection := some connId }

/-- Handshake failures (spec section 7). -/
inductive HandshakeError where
  | roomNotFound
  | invalidToken
  | roomFull
deriving Repr, DecidableEq

/-- Modelled from the spec: the join/reconnect handshake (spec section 4.2;
plan.md perform_handshake).  Presenting an existing pid with the matching
token rebinds the connection to the stored entry, discarding any previous
connection for that pid; a mismatching or unknown pid/token pair fails with
InvalidToken; with no prior identity a fresh entry is registered.  Returns
the updated room and the bound pid. -/
def perform_handshake (r : Room) (connId : Nat) (playerId : Option Nat)
    (token : Option Nat) (name : String) (freshPid freshToken : Nat) :
    Except HandshakeError (Room × Nat) :=
  match playerId with
  | some pid =>
    match findPlayer r pid with
    | some p =>
      if token = some p.token then
        Except.ok
          ({ r with players := r.players.map fun q =>
              if q.pid == pid then { q with connection := some connId } else q }, pid)
      else Except.error HandshakeError.invalidToken
    | none => Except.error HandshakeError.invalidToken
  | none =>
    Except.ok
      ({ r with players := r.players ++ [newPlayerEntry freshPid freshToken name connId] },
        freshPid)

/-- One unit of work arriving at the room loop: a decoded game command, a
heartbeat acknowledgement, a diagnostic latency report, or a periodic tick
(spec section 5, the serialized control loop). -/
inductive Input where
  | cmd (pid now : Nat) (c : GameCommand)
  | pong (pid now : Nat)
  | latReport (pid tLat : Nat)
  | tickAt (now : Nat)
deriving Repr, DecidableEq

/-- Dispatch one input to the room. -/
def step (r : Room) : Input → Room × List GameEvent
  | Input.cmd pid now c => applyCommand r pid now c
  | Input.pong pid now => (roomHandlePong r pid now, [])
  | Input.latReport pid tLat => (roomHandleLatencyReport r pid tLat, [])
  | Input.tickAt now => tick r now

/-- Run a list of inputs, accumulating emitted events in order. -/
def run (r : Room) : List Input → Room × List GameEvent
  | [] => (r, [])
  | i :: is =>
    let s := step r i
    let rest := run s.1 is
    (rest.1, s.2 ++ rest.2)

/-- Erase the diagnostic store, the only room component fed by
client-reported latency figures. -/
def scrub (r : Room) : Room :=
  { r with diag := [] }

/-- Erase the client-reported figure of a diagnostic latency report; every
other input is kept as-is. -/
def scrubInput : Input → Input
  | Input.latReport pid _ => Input.latReport pid 0
  | i => i

/-- The sequence of winner announcements contained in an event list. -/
def declaredWinners (es : List GameEvent) : List (Option Nat) :=
  es.filterMap fun e =>
    match e with
    | GameEvent.buzzWinner w => some w
    | _ => none

/-- The listed transition edges of the state machine (spec section 4.3):
the Selection to QuestionReading to WaitingForBuzz to Answer to AnswerReveal
to Selection loop, the Buzz self-edge, the three HostSkip edges, and EndGame
from any state. -/
inductive ListedEdge : RoomState → GameCommand → RoomState → Prop where
  | choice (ci qi : Nat) :
      ListedEdge RoomState.selection (GameCommand.hostChoice ci qi) RoomState.questionReading
  | ready : ListedEdge RoomState.questionReading GameCommand.hostReady RoomState.waitingForBuzz
  | buzzStay : ListedEdge RoomState.waitingForBuzz GameCommand.buzz RoomState.waitingForBuzz
  | checked (b : Bool) :
      ListedEdge RoomState.answer (GameCommand.hostChecked b) RoomState.answerReveal
  | continueGame :
      ListedEdge RoomState.answerReveal GameCommand.hostContinue RoomState.selection
  | skipReading : ListedEdge RoomState.questionReading GameCommand.hostSkip RoomState.answerReveal
  | skipWaiting : ListedEdge RoomState.waitingForBuzz GameCommand.hostSkip RoomState.answerReveal
  | skipAnswer : ListedEdge RoomState.answer GameCommand.hostSkip RoomState.answerReveal
  | ending (s : RoomState) : ListedEdge s GameCommand.endGame RoomState.gameEnd

/-- Server-to-client frames as the client hook sees them, embedded from the
tags handled in useWebSocket.ts and Player.tsx: the two heartbeat frames plus
the game events delivered to the page. -/
inductive ServerFrame where
  | doHeartbeat (hbid : Nat)
  | gotHeartbeat (hbid : Nat)
  | newPlayer (pid token : Nat)
  | playerState (pid : Nat) (buzzed : Bool) (score : Int) (canBuzz : Bool)
  | gameState (state : RoomState)
  | buzzEnabled
  | buzzDisabled
  | answerResult (correct : Bool)
  | witnessMsg
deriving Repr, DecidableEq

/-- Client replies produced inside the hook, embedded from useWebSocket.ts:
the Heartbeat echo with the local receipt time and the LatencyOfHeartbeat
diagnostic report. -/
inductive ClientFrame where
  | heartbeat (t_dohb_recv : Nat)
  | latencyOfHeartbeat (hbid : Nat) (t_lat : Nat)
deriving Repr, DecidableEq

/-- Whether a frame carries one of the two heartbeat tags the hook consumes
internally. -/
def isHeartbeatTag : ServerFrame → Bool
  | ServerFrame.doHeartbeat _ => true
  | ServerFrame.gotHeartbeat _ => true
  | _ => false

/-- Embedded from useWebSocket.ts ws.onmessage (lines 74 to 94): given the
lastHeartbeatRef value and the current clock, a DoHeartbeat frame sends a
Heartbeat reply carrying the receipt time, records it in the ref and returns;
a GotHeartbeat frame sends a LatencyOfHeartbeat reply with now minus the ref
and returns; every other parsed frame is handed to onMessage unchanged.
The result is (new ref value, reply sent, frame delivered to onMessage). -/
def wsOnMessage (lastHeartbeat now : Nat) (msg : ServerFrame) :
    Nat × Option ClientFrame × Option ServerFrame :=
  match msg with
  | ServerFrame.doHeartbeat _ => (now, some (ClientFrame.heartbeat now), none)
  | ServerFrame.gotHeartbeat hbid =>
    (lastHeartbeat, some (ClientFrame.latencyOfHeartbeat hbid (now - lastHeartbeat)), none)
  | m => (lastHeartbeat, none, some m)

/-- First roster entry used by the concrete witnesses. -/
def samplePlayer1 : PlayerEntry :=
  { pid := 1, name := "alice", token := 11, score := 200, latency_ms := 40,
    last_ping_sent := none, has_buzzed := false, connection := some 7 }

/-- Second roster entry used by the concrete witnesses; it has a heartbeat
probe outstanding since 900. -/
def samplePlayer2 : PlayerEntry :=
  { pid := 2, name := "bob", token := 22, score := 0, latency_ms := 10,
    last_ping_sent := some 900, has_buzzed := false, connection := some 8 }

/-- A two-player roster used by the concrete witnesses. -/
def samplePlayers : List PlayerEntry :=
  [samplePlayer1, samplePlayer2]

/-- A one-question board used by the concrete witnesses. -/
def sampleBoard : List (List Question) :=
  [[{ question := "q", answer := "a", value := 100, answered := false }]]

/-- A room in WaitingForBuzz with an open window and no candidates yet,
used by the concrete witnesses. -/
def sampleRoom : Room :=
  { state := RoomState.waitingForBuzz
    board := sampleBoard
    current_question := some (0, 0)
    players := samplePlayers
    buzz_candidates := []
    buzz_window_end := some 1000
    window_duration := 3000
    current_buzzer := none
    diag := [] }

/-- A room whose window already holds the two candidates of the spec
section 8 scenario shape: pid 1 arrives at 100 with latency 40 (adjusted 60),
pid 2 arrives at 90 with latency 10 (adjusted 80). -/
def sampleRoomC : Room :=
  { sampleRoom with
    buzz_candidates := [⟨1, 100, 40⟩, ⟨2, 90, 10⟩] }

lemma handle_buzz_shape (r : Room) (pid now : Nat) :
    (handle_buzz r pid now).1.state = r.state ∧
    (handle_buzz r pid now).2 = [] ∧
    (handle_buzz r pid now).1.buzz_window_end = r.buzz_window_end := by
  unfold handle_buzz
  split
  · simp
  · split
    · split
      · simp
      · split <;> simp
    · simp

/-- Claim C1: when a buzz window closes with a non-empty candidate set, the
tick declares as winner a candidate whose adjusted time (server receipt time
minus latency at receipt) is at most every other candidate's; among equal
adjusted times the earliest server receipt time wins, and among those still
equal the lowest pid wins. -/
theorem claim_C1 (r : Room) (now e : Nat)
    (hs : r.state = RoomState.waitingForBuzz)
    (hw : r.buzz_window_end = some e)
    (hn : e ≤ now)
    (hne : r.buzz_candidates ≠ []) :
    ∃ w, resolveWinner r.buzz_candidates = some w ∧
      GameEvent.buzzWinner (some w.pid) ∈ (tick r now).2 ∧
      w ∈ r.buzz_candidates ∧
      ∀ c ∈ r.buzz_candidates,
        adjusted_time w ≤ adjusted_time c ∧
        (adjusted_time w = adjusted_time c → w.server_receipt_time ≤ c.server_receipt_time) ∧
        (adjusted_time w = adjusted_time c → w.server_receipt_time = c.server_receipt_time →
          w.pid ≤ c.pid) := by
  obtain ⟨w, hwin⟩ := resolveWinner_isSome hne
  refine ⟨w, hwin, ?_, resolveWinner_mem hwin, ?_⟩
  · simp [tick, hs, hw, Nat.not_lt.mpr hn, hwin]
  · intro c hc
    have hmin := resolveWinner_min hwin c hc
    rw [candBetter_false_iff] at hmin
    refine ⟨?_, ?_, ?_⟩ <;> omega

/-- Witness for C1 on the concrete two-candidate room: pid 1, arriving at 100
with latency 40, beats pid 2, arriving at 90 with latency 10. -/
theorem claim_C1_witness :
    ∃ w, resolveWinner sampleRoomC.buzz_candidates = some w ∧
      GameEvent.buzzWinner (some w.pid) ∈ (tick sampleRoomC 1500).2 ∧
      w ∈ sampleRoomC.buzz_candidates ∧
      ∀ c ∈ sampleRoomC.buzz_candidates,
        adjusted_time w ≤ adjusted_time c ∧
        (adjusted_time w = adjusted_time c → w.server_receipt_time ≤ c.server_receipt_time) ∧
        (adjusted_time w = adjusted_time c → w.server_receipt_time = c.server_receipt_time →
          w.pid ≤ c.pid) :=
  claim_C1 sampleRoomC 1500 1000 rfl rfl (by decide) (by decide)

/-- Claim C2: a Buzz processed while WaitingForBuzz keeps the room in
WaitingForBuzz and emits no winner event; a tick before the deadline does
nothing; the winner announcement — including the explicit no-winner case —
is emitted by the tick that observes now at or past buzz_window_end, in the
same step that moves the room to Answer. -/
theorem claim_C2 (r : Room) (pid now : Nat) :
    (r.state = RoomState.waitingForBuzz →
      (applyCommand r pid now GameCommand.buzz).1.state = RoomState.waitingForBuzz ∧
      (applyCommand r pid now GameCommand.buzz).2 = []) ∧
    (∀ e, r.buzz_window_end = some e → now < e → tick r now = (r, [])) ∧
    (∀ e, r.state = RoomState.waitingForBuzz → r.buzz_window_end = some e → e ≤ now →
      (tick r now).1.state = RoomState.answer ∧
      GameEvent.buzzWinner ((resolveWinner r.buzz_candidates).map fun w => w.pid)
        ∈ (tick r now).2) := by
  refine ⟨?_, ?_, ?_⟩
  · intro hs
    have hsh := handle_buzz_shape r pid now
    simp [applyCommand, hs]
    exact ⟨by rw [hsh.1, hs], hsh.2.1⟩
  · intro e hw hlt
    cases hst : r.state <;> simp [tick, hst, hw, hlt]
  · intro e hs hw hn
    cases hwin : resolveWinner r.buzz_candidates with
    | none => simp [tick, hs, hw, Nat.not_lt.mpr hn, hwin]
    | some w => simp [tick, hs, hw, Nat.not_lt.mpr hn, hwin]

/-- Witness for C2 on the concrete room: a buzz at 500 stays in
WaitingForBuzz, a tick at 500 is a no-op, and a tick at 1500 moves to
Answer. -/
theorem claim_C2_witness :
    (applyCommand sampleRoom 1 500 GameCommand.buzz).1.state = RoomState.waitingForBuzz ∧
    tick sampleRoom 500 = (sampleRoom, []) ∧
    (tick sampleRoom 1500).1.state = RoomState.answer :=
  ⟨((claim_C2 sampleRoom 1 500).1 rfl).1,
    (claim_C2 sampleRoom 1 500).2.1 1000 rfl (by decide),
    ((claim_C2 sampleRoom 1 1500).2.2 1000 rfl rfl (by decide)).1⟩

/-- The sample room parked in QuestionReading, for the C3 witness. -/
def sampleRoomQ : Room :=
  { sampleRoom with state := RoomState.questionReading }

/-- Claim C3: HostReady received in QuestionReading moves the room to
WaitingForBuzz, clears buzz_candidates, sets buzz_window_end to now plus the
window duration and broadcasts the buzz-window-opened event; and no Buzz
command ever changes buzz_window_end, so the deadline is fixed by HostReady,
not by the first buzz. -/
theorem claim_C3 (r : Room) (pid now : Nat)
    (hs : r.state = RoomState.questionReading) :
    applyCommand r pid now GameCommand.hostReady =
      ({ r with
          state := RoomState.waitingForBuzz
          buzz_candidates := []
          buzz_window_end := some (now + r.window_duration) },
        [GameEvent.buzzWindowOpened]) ∧
    ∀ (r2 : Room) (pid2 now2 : Nat),
      (applyCommand r2 pid2 now2 GameCommand.buzz).1.buzz_window_end = r2.buzz_window_end := by
  constructor
  · simp [applyCommand, hs]
  · intro r2 pid2 now2
    cases hst : r2.state <;> simp [applyCommand, hst]
    exact (handle_buzz_shape r2 pid2 now2).2.2

/-- Witness for C3 on the concrete room in QuestionReading, at now 500. -/
theorem claim_C3_witness :
    applyCommand sampleRoomQ 0 500 GameCommand.hostReady =
      ({ sampleRoomQ with
          state := RoomState.waitingForBuzz
          buzz_candidates := []
          buzz_window_end := some (500 + sampleRoomQ.window_duration) },
        [GameEvent.buzzWindowOpened]) ∧
    ∀ (r2 : Room) (pid2 now2 : Nat),
      (applyCommand r2 pid2 now2 GameCommand.buzz).1.buzz_window_end = r2.buzz_window_end :=
  claim_C3 sampleRoomQ 0 500 rfl

/-- Claim C4: within one window a player's Buzz is idempotent — the first
accepted Buzz appends exactly one candidate for that pid, and any further
Buzz from the same pid in the same window returns the room unchanged with no
events and no duplicate candidate. -/
theorem claim_C4 (r : Room) (pid now e : Nat) (p : PlayerEntry)
    (hs : r.state = RoomState.waitingForBuzz)
    (hw : r.buzz_window_end = some e)
    (hn : now < e)
    (hp : findPlayer r pid = some p)
    (hc : hasCandidate r pid = false) :
    (applyCommand r pid now GameCommand.buzz).1.buzz_candidates
        = r.buzz_candidates ++ [⟨pid, now, p.latency_ms⟩] ∧
    countCandidates (applyCommand r pid now GameCommand.buzz).1 pid = 1 ∧
    ∀ now2, applyCommand (applyCommand r pid now GameCommand.buzz).1 pid now2 GameCommand.buzz
        = ((applyCommand r pid now GameCommand.buzz).1, []) := by
  have hstep : applyCommand r pid now GameCommand.buzz =
      ({ r with buzz_candidates := r.buzz_candidates ++ [⟨pid, now, p.latency_ms⟩] }, []) := by
    simp [applyCommand, hs, handle_buzz, hw, hn, hc, hp]
  have hall : ∀ x ∈ r.buzz_candidates, ¬ x.pid = pid := by
    simpa [hasCandidate] using hc
  have hzero : r.buzz_candidates.countP (fun c => c.pid == pid) = 0 := by
    rw [List.countP_eq_zero]
    intro a ha
    simpa using hall a ha
  refine ⟨by rw [hstep], ?_, ?_⟩
  · rw [hstep]
    simp [countCandidates, List.countP_append, hzero]
  · intro now2
    rw [hstep]
    simp [applyCommand, hs, handle_buzz, hw]
    intro _ hfc
    simp [hasCandidate] at hfc

/-- Witness for C4 on the concrete room: pid 1 buzzes at 500 inside the
window ending at 1000. -/
theorem claim_C4_witness :
    (applyCommand sampleRoom 1 500 GameCommand.buzz).1.buzz_candidates
        = sampleRoom.buzz_candidates ++ [⟨1, 500, samplePlayer1.latency_ms⟩] ∧
    countCandidates (applyCommand sampleRoom 1 500 GameCommand.buzz).1 1 = 1 ∧
    ∀ now2, applyCommand (applyCommand sampleRoom 1 500 GameCommand.buzz).1 1 now2 GameCommand.buzz
        = ((applyCommand sampleRoom 1 500 GameCommand.buzz).1, []) :=
  claim_C4 sampleRoom 1 500 1000 samplePlayer1 rfl rfl (by decide) (by decide) (by decide)

/-- Claim C5: a Buzz whose server receipt time is at or past buzz_window_end
is dropped — the room and event list are unchanged — and since any declared
winner is drawn from the collected candidates, such a buzz can never win the
window. -/
theorem claim_C5 (r : Room) (pid now e : Nat)
    (hw : r.buzz_window_end = some e)
    (hn : e ≤ now) :
    applyCommand r pid now GameCommand.buzz = (r, []) ∧
    ∀ (cs : List BuzzCandidate) (w : BuzzCandidate), resolveWinner cs = some w → w ∈ cs := by
  constructor
  · cases hst : r.state <;> simp [applyCommand, hst]
    simp [handle_buzz, hw, Nat.not_lt.mpr hn]
  · exact fun cs w h => resolveWinner_mem h

/-- Witness for C5 on the concrete room: a buzz arriving at 1500, past the
deadline 1000, leaves the room untouched. -/
theorem claim_C5_witness :
    applyCommand sampleRoom 1 1500 GameCommand.buzz = (sampleRoom, []) ∧
    ∀ (cs : List BuzzCandidate) (w : BuzzCandidate), resolveWinner cs = some w → w ∈ cs :=
  claim_C5 sampleRoom 1 1500 1000 rfl (by decide)

/-- Claim C6: acknowledging an outstanding heartbeat probe stores half the
round trip — latency_ms becomes (now minus the send timestamp) divided by 2,
the whole round trip halved, not now minus half the timestamp — and clears
the probe; a freshly joined entry carries latency_ms 0 until its first
heartbeat completes. -/
theorem claim_C6 (p : PlayerEntry) (now ts : Nat)
    (h : p.last_ping_sent = some ts) :
    (handlePong p now).latency_ms = (now - ts) / 2 ∧
    (handlePong p now).last_ping_sent = none ∧
    (∀ (pid token connId : Nat) (name : String),
      (newPlayerEntry pid token name connId).latency_ms = 0) ∧
    (handlePong samplePlayer2 1000).latency_ms ≠ 1000 - 900 / 2 := by
  refine ⟨?_, ?_, ?_, ?_⟩
  · simp [handlePong, h]
  · simp [handlePong, h]
  · intro pid token connId name
    simp [newPlayerEntry]
  · decide

/-- Witness for C6 on the concrete entry with a probe sent at 900 and the
acknowledgement arriving at 1000: latency becomes 50. -/
theorem claim_C6_witness :
    (handlePong samplePlayer2 1000).latency_ms = (1000 - 900) / 2 ∧
    (handlePong samplePlayer2 1000).last_ping_sent = none ∧
    (∀ (pid token connId : Nat) (name : String),
      (newPlayerEntry pid token name connId).latency_ms = 0) ∧
    (handlePong samplePlayer2 1000).latency_ms ≠ 1000 - 900 / 2 :=
  claim_C6 samplePlayer2 1000 900 rfl

lemma scrub_eq_elim {r1 r2 : Room} (h : scrub r1 = scrub r2) :
    r2 = { r1 with diag := r2.diag } := by
  obtain ⟨s1, b1, q1, p1, c1, w1, d1, z1, g1⟩ := r1
  obtain ⟨s2, b2, q2, p2, c2, w2, d2, z2, g2⟩ := r2
  simp only [scrub, Room.mk.injEq, and_true] at h
  obtain ⟨rfl, rfl, rfl, rfl, rfl, rfl, rfl, rfl⟩ := h
  rfl

lemma handle_buzz_diag (r : Room) (d : List (Nat × Nat)) (pid now : Nat) :
    handle_buzz { r with diag := d } pid now =
      ({ (handle_buzz r pid now).1 with diag := d }, (handle_buzz r pid now).2) := by
  obtain ⟨st, bd, cq, pl, bc, bw, wd, cb, dg⟩ := r
  cases bw with
  | none => rfl
  | some e =>
    simp only [handle_buzz, hasCandidate, findPlayer]
    split <;> try rfl
    split <;> try rfl
    split <;> rfl

lemma markAnswered_diag (r : Room) (d : List (Nat × Nat)) :
    markAnswered { r with diag := d } = { markAnswered r with diag := d } := by
  obtain ⟨st, bd, cq, pl, bc, bw, wd, cb, dg⟩ := r
  cases cq with
  | none => rfl
  | some p =>
    obtain ⟨ci, qi⟩ := p
    rfl

lemma applyWinnerScore_diag (r : Room) (d : List (Nat × Nat)) (correct : Bool) :
    applyWinnerScore { r with diag := d } correct =
      { applyWinnerScore r correct with diag := d } := by
  obtain ⟨st, bd, cq, pl, bc, bw, wd, cb, dg⟩ := r
  cases cb with
  | none => rfl
  | some bp => rfl

lemma skipQuestion_diag (r : Room) (d : List (Nat × Nat)) :
    skipQuestion { r with diag := d } = { skipQuestion r with diag := d } := by
  obtain ⟨st, bd, cq, pl, bc, bw, wd, cb, dg⟩ := r
  cases cq with
  | none => rfl
  | some p =>
    obtain ⟨ci, qi⟩ := p
    rfl

lemma applyCommand_diag (r : Room) (d : List (Nat × Nat)) (pid now : Nat) (c : GameCommand) :
    applyCommand { r with diag := d } pid now c =
      ({ (applyCommand r pid now c).1 with diag := d }, (applyCommand r pid now c).2) := by
  cases hst : r.state <;> cases c <;> simp only [applyCommand, hst, questionAt] <;> try rfl
  case selection.hostChoice ci qi =>
    cases hq : (r.board.get? ci).bind fun cat => cat.get? qi with
    | none => simp [hq, hst]
    | some q => by_cases hqa : q.answered = true <;> simp [hq, hqa, hst]
  case questionReading.hostSkip =>
    rw [← hst, skipQuestion_diag]
  case waitingForBuzz.hostSkip =>
    rw [← hst, skipQuestion_diag]
  case answer.hostSkip =>
    rw [← hst, skipQuestion_diag]
  case waitingForBuzz.buzz =>
    rw [← hst]
    exact handle_buzz_diag r d pid now
  case answer.hostChecked correct =>
    rw [← hst, applyWinnerScore_diag, markAnswered_diag]

lemma tick_diag (r : Room) (d : List (Nat × Nat)) (now : Nat) :
    tick { r with diag := d } now =
      ({ (tick r now).1 with diag := d }, (tick r now).2) := by
  cases hst : r.state <;> cases hw : r.buzz_window_end <;>
    (simp only [tick, hst, hw]; try rfl)
  all_goals
    rename_i e
    by_cases hlt : now < e
    · simp [hlt, hst, hw]
    · cases hres : resolveWinner r.buzz_candidates with
      | none => simp [hlt, hres, hst, hw]
      | some w => simp [hlt, hres, hst, hw, updatePlayer]

lemma roomHandlePong_diag (r : Room) (d : List (Nat × Nat)) (pid now : Nat) :
    roomHandlePong { r with diag := d } pid now =
      { roomHandlePong r pid now with diag := d } := by
  obtain ⟨st, bd, cq, pl, bc, bw, wd, cb, dg⟩ := r
  rfl

lemma step_scrub_pair (r1 r2 : Room) (h : scrub r1 = scrub r2) (i1 i2 : Input)
    (hi : scrubInput i1 = scrubInput i2) :
    scrub (step r1 i1).1 = scrub (step r2 i2).1 ∧ (step r1 i1).2 = (step r2 i2).2 := by
  have hr2 := scrub_eq_elim h
  cases i1 <;> cases i2 <;> simp only [scrubInput, Input.cmd.injEq, Input.pong.injEq,
    Input.latReport.injEq, Input.tickAt.injEq] at hi <;> try contradiction
  · obtain ⟨rfl, rfl, rfl⟩ := hi
    rename_i pid now c
    rw [hr2]
    simp only [step]
    rw [applyCommand_diag r1 r2.diag pid now c]
    simp [scrub]
  · obtain ⟨rfl, rfl⟩ := hi
    rename_i pid now
    rw [hr2]
    simp only [step]
    rw [roomHandlePong_diag r1 r2.diag pid now]
    simp [scrub]
  · obtain ⟨rfl, -⟩ := hi
    rw [hr2]
    simp [step, roomHandleLatencyReport, scrub]
  · obtain rfl := hi
    rename_i now
    rw [hr2]
    simp only [step]
    rw [tick_diag r1 r2.diag now]
    simp [scrub]

lemma run_scrub_pair (ins1 : List Input) :
    ∀ (ins2 : List Input), ins1.map scrubInput = ins2.map scrubInput →
    ∀ (r1 r2 : Room), scrub r1 = scrub r2 →
      (run r1 ins1).2 = (run r2 ins2).2 := by
  induction ins1 with
  | nil =>
    intro ins2 hmap r1 r2 _
    cases ins2 with
    | nil => rfl
    | cons _ _ => simp at hmap
  | cons i is ih =>
    intro ins2 hmap r1 r2 hr
    cases ins2 with
    | nil => simp at hmap
    | cons j js =>
      simp only [List.map_cons, List.cons.injEq] at hmap
      obtain ⟨hij, hjs⟩ := hmap
      obtain ⟨hstate, hevents⟩ := step_scrub_pair r1 r2 hr i j hij
      simp only [run]
      rw [hevents, ih js hjs (step r1 i).1 (step r2 j).1 hstate]

/-- Claim C7: the arbitration outcome depends only on the server-measured
latency samples — two runs from the same room whose inputs agree except for
the client-reported LatencyOfHeartbeat figures emit the same events, and in
particular announce the same buzz winners. -/
theorem claim_C7 (r : Room) (ins1 ins2 : List Input)
    (h : ins1.map scrubInput = ins2.map scrubInput) :
    declaredWinners (run r ins1).2 = declaredWinners (run r ins2).2 ∧
    (run r ins1).2 = (run r ins2).2 := by
  have hev := run_scrub_pair ins1 ins2 h r r rfl
  exact ⟨by rw [hev], hev⟩

/-- Witness for C7: two runs over the candidate-filled room that differ only
in the reported diagnostic figure (50 against 9999) announce the same
winners. -/
theorem claim_C7_witness :
    declaredWinners (run sampleRoomC [Input.latReport 1 50, Input.tickAt 2000]).2
        = declaredWinners (run sampleRoomC [Input.latReport 1 9999, Input.tickAt 2000]).2 ∧
    (run sampleRoomC [Input.latReport 1 50, Input.tickAt 2000]).2
        = (run sampleRoomC [Input.latReport 1 9999, Input.tickAt 2000]).2 :=
  claim_C7 sampleRoomC [Input.latReport 1 50, Input.tickAt 2000]
    [Input.latReport 1 9999, Input.tickAt 2000] (by decide)

lemma find_map_update (l : List PlayerEntry) (pid : Nat) (f : PlayerEntry → PlayerEntry)
    (hf : ∀ q, (f q).pid = q.pid) (p : PlayerEntry)
    (h : l.find? (fun q => q.pid == pid) = some p) :
    (l.map fun q => if q.pid == pid then f q else q).find? (fun q => q.pid == pid)
      = some (f p) := by
  induction l with
  | nil => simp at h
  | cons a as ih =>
    by_cases ha : (a.pid == pid) = true
    · have hap : a = p := by simpa [List.find?, ha] using h
      subst hap
      have hfa : ((f a).pid == pid) = true := by
        rw [hf a]
        exact ha
      simp [List.find?, ha, hfa]
    · have hrec : as.find? (fun q => q.pid == pid) = some p := by
        simpa [List.find?, ha] using h
      simpa [List.find?, ha] using ih hrec

/-- Claim C8: presenting an existing pid with the matching token rebinds the
connection to the stored roster entry — same pid, same score, same
has_buzzed flag, roster size unchanged — discarding any previous connection
for that pid; a presented token that does not match fails with
InvalidToken. -/
theorem claim_C8 (r : Room) (connId pid tok fp ft : Nat) (name : String) (p : PlayerEntry)
    (hp : findPlayer r pid = some p) :
    (tok = p.token →
      ∃ r1, perform_handshake r connId (some pid) (some tok) name fp ft = Except.ok (r1, pid) ∧
        r1.players.length = r.players.length ∧
        ∃ q, findPlayer r1 pid = some q ∧ q.pid = p.pid ∧ q.score = p.score ∧
          q.has_buzzed = p.has_buzzed ∧ q.token = p.token ∧ q.connection = some connId) ∧
    (tok ≠ p.token →
      perform_handshake r connId (some pid) (some tok) name fp ft =
        Except.error HandshakeError.invalidToken) := by
  constructor
  · intro htok
    refine ⟨{ r with players := r.players.map fun q =>
        if q.pid == pid then { q with connection := some connId } else q }, ?_, ?_, ?_⟩
    · simp [perform_handshake, hp, htok]
    · simp
    · refine ⟨{ p with connection := some connId }, ?_, rfl, rfl, rfl, rfl, rfl⟩
      have := find_map_update r.players pid (fun q => { q with connection := some connId })
        (fun q => rfl) p (by simpa [findPlayer] using hp)
      simpa [findPlayer] using this
  · intro htok
    simp [perform_handshake, hp]
    intro hcontra
    exact absurd hcontra htok

/-- Witness for C8 on the concrete room: pid 1 reclaims with the right token
11 and keeps score 200; the wrong token 99 is rejected. -/
theorem claim_C8_witness :
    ((11 : Nat) = samplePlayer1.token →
      ∃ r1, perform_handshake sampleRoom 55 (some 1) (some 11) "alice" 9 10
          = Except.ok (r1, 1) ∧
        r1.players.length = sampleRoom.players.length ∧
        ∃ q, findPlayer r1 1 = some q ∧ q.pid = samplePlayer1.pid ∧
          q.score = samplePlayer1.score ∧ q.has_buzzed = samplePlayer1.has_buzzed ∧
          q.token = samplePlayer1.token ∧ q.connection = some 55) ∧
    ((11 : Nat) ≠ samplePlayer1.token →
      perform_handshake sampleRoom 55 (some 1) (some 11) "alice" 9 10 =
        Except.error HandshakeError.invalidToken) :=
  claim_C8 sampleRoom 55 1 11 9 10 "alice" samplePlayer1 (by decide)

/-- Claim C9: the room phase changes only along the listed edges of the
state machine — for every command either the phase is unchanged or the step
is a ListedEdge instance — and the tick only ever moves WaitingForBuzz to
Answer. -/
theorem claim_C9 (r : Room) (pid now : Nat) (c : GameCommand) :
    ((applyCommand r pid now c).1.state = r.state ∨
      ListedEdge r.state c (applyCommand r pid now c).1.state) ∧
    ((tick r now).1.state = r.state ∨
      (r.state = RoomState.waitingForBuzz ∧ (tick r now).1.state = RoomState.answer)) := by
  obtain ⟨st, bd, cq, pl, bc, bw, wd, cb, dg⟩ := r
  constructor
  · cases st <;> cases c <;>
      first
        | exact Or.inl rfl
        | exact Or.inr ListedEdge.ready
        | exact Or.inr (ListedEdge.checked _)
        | exact Or.inr ListedEdge.continueGame
        | exact Or.inr ListedEdge.skipReading
        | exact Or.inr ListedEdge.skipWaiting
        | exact Or.inr ListedEdge.skipAnswer
        | exact Or.inr (ListedEdge.ending _)
        | exact Or.inl (handle_buzz_shape _ pid now).1
        | (simp only [applyCommand]
           split
           · exact Or.inl rfl
           · split
             · exact Or.inl rfl
             · exact Or.inr (ListedEdge.choice _ _))
  · cases st <;> try exact Or.inl rfl
    cases bw with
    | none => exact Or.inl rfl
    | some e =>
      simp only [tick]
      split
      · exact Or.inl rfl
      · split
        · exact Or.inr ⟨trivial, rfl⟩
        · exact Or.inr ⟨trivial, rfl⟩

/-- Claim C10: inside the client WebSocket hook, a DoHeartbeat frame is
answered with a Heartbeat reply and consumed, a GotHeartbeat frame is
answered with a LatencyOfHeartbeat reply and consumed, and every other
successfully parsed frame is handed to the page-level onMessage callback
unchanged with no reply. -/
theorem claim_C10 (lastHb now : Nat) (msg : ServerFrame) :
    (∀ hbid, msg = ServerFrame.doHeartbeat hbid →
      wsOnMessage lastHb now msg = (now, some (ClientFrame.heartbeat now), none)) ∧
    (∀ hbid, msg = ServerFrame.gotHeartbeat hbid →
      wsOnMessage lastHb now msg =
        (lastHb, some (ClientFrame.latencyOfHeartbeat hbid (now - lastHb)), none)) ∧
    (isHeartbeatTag msg = false →
      wsOnMessage lastHb now msg = (lastHb, none, some msg)) := by
  refine ⟨?_, ?_, ?_⟩
  · rintro hbid rfl
    rfl
  · rintro hbid rfl
    rfl
  · intro hno
    cases msg <;> first | rfl | simp [isHeartbeatTag] at hno

/-- Witness for C10 at concrete inputs: with the ref at 100 and the clock at
250, DoHeartbeat is answered and consumed, GotHeartbeat is answered with
latency 150 and consumed, and a BuzzEnabled frame passes through
untouched. -/
theorem claim_C10_witness :
    wsOnMessage 100 250 (ServerFrame.doHeartbeat 3)
        = (250, some (ClientFrame.heartbeat 250), none) ∧
    wsOnMessage 100 250 (ServerFrame.gotHeartbeat 3)
        = (100, some (ClientFrame.latencyOfHeartbeat 3 (250 - 100)), none) ∧
    wsOnMessage 100 250 ServerFrame.buzzEnabled
        = (100, none, some ServerFrame.buzzEnabled) :=
  ⟨(claim_C10 100 250 (ServerFrame.doHeartbeat 3)).1 3 rfl,
    (claim_C10 100 250 (ServerFrame.gotHeartbeat 3)).2.1 3 rfl,
    (claim_C10 100 250 ServerFrame.buzzEnabled).2.2 rfl⟩
